import Mathlib

/-!
Verification of the AddtoPDF application (`main.py`): a folder of Office
documents and PDFs is scanned, non-PDF files are converted to PDF by an
external backend (Microsoft Office COM automation, falling back to headless
LibreOffice), the resulting PDFs are merged into one output file, and a
background worker reports progress to the UI through a FIFO event queue
polled on a timer.

The embedding below is a shallow one.  Filesystem paths are modelled by a
directory / stem / extension record (Python's `Path.suffix`, `Path.name`,
`Path.with_suffix` become field operations).  The external converter
backends and the PDF merger are oracles: functions from paths to
`Except String Unit`, where `Except.error e` models the Python call raising
an exception with message `e`.  Callback invocations and queue puts are
modelled by the list of events they produce, in order.  The Python
`try`/`except` blocks are translated explicitly: the body of a `try` is a
function into `Except`, and the handler is a separate function applied to
the error case.
-/

namespace AddToPDF

/-- A filesystem path, split as directory, stem and extension (the extension
includes the leading dot, in its original case), mirroring Python `Path`. -/
structure FPath where
  dir : String
  stem : String
  ext : String
deriving DecidableEq, Repr

/-- Python `str.lower()`, modelled characterwise (extensions are ASCII). -/
def asciiLower (s : String) : String := ⟨s.data.map Char.toLower⟩

/-- Python `str.strip()`, modelled characterwise. -/
def pyStrip (s : String) : String :=
  ⟨((s.data.dropWhile Char.isWhitespace).reverse.dropWhile Char.isWhitespace).reverse⟩

/-- Python `Path.suffix.lower()`. -/
def FPath.suffixLower (f : FPath) : String := asciiLower f.ext

/-- Python `Path.name`: final component, stem plus extension. -/
def FPath.name (f : FPath) : String := f.stem ++ f.ext

/-- Python `str(path)`. -/
def FPath.str (f : FPath) : String := f.dir ++ "/" ++ f.stem ++ f.ext

/-- Python `Path.with_suffix(s)`. -/
def FPath.withSuffix (f : FPath) (s : String) : FPath := { f with ext := s }

/-- `SUPPORTED_EXTS` from `main.py`. -/
def SUPPORTED_EXTS : List String := [".doc", ".docx", ".ppt", ".pptx", ".pdf"]

/-- The events a run pushes onto the UI queue (`self._q.put`): the tuples
`("progress", cur, total, msg)`, `("row", filename, status)`,
`("stage", msg)`, `("done", path)` and `("error", msg)`. -/
inductive Event where
  | progress (cur total : Nat) (msg : String)
  | row (filename status : String)
  | stage (msg : String)
  | done (path : String)
  | error (msg : String)
deriving DecidableEq, Repr

/-- A `done` or `error` event ends the run. -/
def isTerminal : Event → Bool
  | .done _ => true
  | .error _ => true
  | _ => false

def isDone : Event → Bool
  | .done _ => true
  | _ => false

/-- One invocation of a conversion backend, recording which backend was
called and with which `str(...)` arguments. -/
inductive BackendCall where
  | comWord (src out : String)
  | comPpt (src out : String)
  | soffice (src out : String)
deriving DecidableEq, Repr

/-- The environment the converter runs in: `COM_AVAILABLE`, `os.name == "nt"`,
`has_soffice()`, and the outcome of each backend call
(`convert_word_to_pdf_com`, `convert_ppt_to_pdf_com`, `convert_via_soffice`);
`Except.error e` models the call raising an exception with message `e`. -/
structure Backends where
  comAvailable : Bool
  osIsNt : Bool
  hasSoffice : Bool
  comWordResult : String → String → Except String Unit
  comPptResult : String → String → Except String Unit
  sofficeResult : String → String → Except String Unit

/-- Lines 78-85 of `main.py`: which COM entry point is used for a given
source file, and its outcome. -/
def comBackend (env : Backends) (src out_pdf : FPath) :
    BackendCall × Except String Unit :=
  if src.suffixLower ∈ [".doc", ".docx"] then
    (BackendCall.comWord src.str out_pdf.str, env.comWordResult src.str out_pdf.str)
  else
    (BackendCall.comPpt src.str out_pdf.str, env.comPptResult src.str out_pdf.str)

/-- Lines 88-91 of `main.py`: the LibreOffice fallback, or the
`"No converter available"` failure when `soffice` is absent. -/
def sofficeFallback (env : Backends) (src out_pdf : FPath) :
    List BackendCall × Except String Unit :=
  if env.hasSoffice then
    ([BackendCall.soffice src.str out_pdf.str], env.sofficeResult src.str out_pdf.str)
  else
    ([], Except.error "No converter available. Install Microsoft Office (Windows) or LibreOffice.")

/-- `convert_office_to_pdf` (lines 74-92): COM automation is preferred when
available on Windows; a COM failure falls through to the LibreOffice
fallback.  Returns the backend calls made, in order, and the outcome. -/
def convert_office_to_pdf (env : Backends) (src out_pdf : FPath) :
    List BackendCall × Except String Unit :=
  let suffix := src.suffixLower
  if suffix ∈ [".doc", ".docx", ".ppt", ".pptx"] then
    if env.comAvailable && env.osIsNt then
      let c := comBackend env src out_pdf
      match c.2 with
      | .ok u => ([c.1], Except.ok u)
      | .error _ =>
        let fb := sofficeFallback env src out_pdf
        (c.1 :: fb.1, fb.2)
    else sofficeFallback env src out_pdf
  else ([], Except.error "Unsupported extension for conversion.")

/-- The body of the `try` block in `convert_all_to_pdfs` (lines 110-121):
the backend calls made, the events emitted before any exception, and either
the path appended to `out_list` or the exception raised. -/
def convertTry (env : Backends) (total doneCount : Nat) (f : FPath) :
    List BackendCall × List Event × Except String String :=
  if f.suffixLower == ".pdf" then
    ([], [Event.row f.name "Queued",
          Event.progress doneCount total ("Queued PDF: " ++ f.name)],
     Except.ok f.str)
  else
    let pdf_out := f.withSuffix ".pdf"
    let pre := [Event.row f.name "Converting",
                Event.progress doneCount total
                  ("Converting " ++ f.name ++ " → " ++ pdf_out.name)]
    match convert_office_to_pdf env f pdf_out with
    | (cs, .ok _) => (cs, pre ++ [Event.row f.name "Converted"], Except.ok pdf_out.str)
    | (cs, .error e) => (cs, pre, Except.error e)

/-- The `except` handler in `convert_all_to_pdfs` (lines 122-124). -/
def convertCatch (total doneCount : Nat) (f : FPath) (e : String) : List Event :=
  [Event.row f.name "Failed",
   Event.progress doneCount total ("Failed: " ++ f.name ++ " (" ++ e ++ ")")]

/-- One iteration of the loop in `convert_all_to_pdfs`: the `try` body with
its `except` handler.  A raised exception is absorbed: the file is marked
Failed and contributes nothing to `out_list`. -/
def processFile (env : Backends) (total doneCount : Nat) (f : FPath) :
    List BackendCall × List Event × Option String :=
  match convertTry env total doneCount f with
  | (cs, evs, .ok p) => (cs, evs, some p)
  | (cs, evs, .error e) => (cs, evs ++ convertCatch total doneCount f e, none)

/-- The loop of `convert_all_to_pdfs` (lines 107-126), with the running
`done` counter made explicit. -/
def convertLoop (env : Backends) (total : Nat) :
    Nat → List FPath → List BackendCall × List Event × List String
  | _, [] => ([], [], [])
  | doneCount, f :: rest =>
    let d := doneCount + 1
    let r := processFile env total d f
    let rr := convertLoop env total d rest
    (r.1 ++ rr.1, r.2.1 ++ rr.2.1, r.2.2.elim rr.2.2 (· :: rr.2.2))

/-- `convert_all_to_pdfs` (lines 98-126): returns the backend calls made,
the events pushed through the two callbacks, and the returned `out_list`. -/
def convert_all_to_pdfs (env : Backends) (files : List FPath) :
    List BackendCall × List Event × List String :=
  convertLoop env files.length 0 files

/-- An entry yielded by `Path.iterdir()`: a regular file, or a
subdirectory together with its own contents (which `iterdir` of the parent
does not descend into). -/
inductive DirEntry where
  | file (p : FPath)
  | subdir (nm : String) (contents : List DirEntry)
deriving Repr

/-- Python `entry.is_file()`. -/
def DirEntry.isFile : DirEntry → Bool
  | .file _ => true
  | .subdir _ _ => false

/-- What the filesystem says about a path handed to `Path.iterdir()`:
absent, present but not a directory, or a directory with its entries. -/
inductive PathLookup where
  | missing
  | notADir
  | dirEntries (entries : List DirEntry)
deriving Repr

/-- Python `Path.exists()`. -/
def PathLookup.existsOnDisk : PathLookup → Bool
  | .missing => false
  | .notADir => true
  | .dirEntries _ => true

/-- `list_supported_files` (lines 94-96).  `iterdir()` on a missing path
raises `FileNotFoundError`, on a non-directory raises `NotADirectoryError`;
otherwise the direct entries are filtered by `is_file()` and supported
lowercase extension. -/
def list_supported_files : PathLookup → Except String (List FPath)
  | .missing => Except.error "FileNotFoundError"
  | .notADir => Except.error "NotADirectoryError"
  | .dirEntries es =>
    Except.ok (es.filterMap fun e =>
      match e with
      | .file p => if p.suffixLower ∈ SUPPORTED_EXTS then some p else none
      | .subdir _ _ => none)

/-- The worker's environment: the converter backends plus the outcome of
`merge_pdfs` on a given PDF list and output path. -/
structure WorkerEnv where
  backends : Backends
  mergeResult : List String → String → Except String Unit

/-- `CleanApp._worker_main` (lines 321-330): run the pipeline, then either
raise `"No files to merge."` (caught by the surrounding `except`, which
emits an `error` event), or emit a `stage` event, merge, and emit `done`
on success or `error` with the raised message on failure.  Returns the full
event sequence the run pushes onto the queue. -/
def worker_main (env : WorkerEnv) (files : List FPath) (out_pdf : String) :
    List Event :=
  let r := convert_all_to_pdfs env.backends files
  let evs := r.2.1
  let pdfs := r.2.2
  if pdfs.isEmpty then
    evs ++ [Event.error "No files to merge."]
  else
    let evs2 := evs ++ [Event.stage ("Merging " ++ toString pdfs.length ++ " PDF(s)…")]
    match env.mergeResult pdfs out_pdf with
    | .ok _ => evs2 ++ [Event.done out_pdf]
    | .error e => evs2 ++ [Event.error e]

/-- The control-thread state of `CleanApp` relevant to run management:
the `_processing` flag, the folder entry text, the scanned file list, and
the enabled/disabled state of the two action buttons. -/
structure AppState where
  processing : Bool
  folderVar : String
  files : List FPath
  runDisabled : Bool
  clearDisabled : Bool
deriving DecidableEq, Repr

/-- The visible outcome of one invocation of `CleanApp._start`. -/
inductive StartResult where
  /-- `_processing` was true: immediate return, nothing happens. -/
  | noop
  /-- The "Invalid folder" error dialog was shown; no run starts. -/
  | invalidFolder
  /-- The "No files" warning dialog was shown; no run starts. -/
  | noFiles
  /-- The save dialog was cancelled; no run starts. -/
  | saveCancelled
  /-- A worker thread was started on `files` with output path `out`. -/
  | started (files : List FPath) (out : String)
deriving DecidableEq, Repr

/-- `CleanApp._start` (lines 285-313).  `lookup` is what the filesystem
says about the stripped folder text; `save` is the result of the
save-file dialog (`none` = cancelled).  The `Except` layer carries an
exception escaping the Tk callback: `list_supported_files` is called on any
path that `exists()`, so a path that exists but is not a directory raises
`NotADirectoryError` out of `_start` with no dialog shown. -/
def appStart (lookup : PathLookup) (st : AppState) (save : Option String) :
    Except String (AppState × StartResult) :=
  if st.processing then Except.ok (st, StartResult.noop)
  else
    let folder := pyStrip st.folderVar
    if folder = "" ∨ lookup.existsOnDisk = false then
      Except.ok (st, StartResult.invalidFolder)
    else
      match list_supported_files lookup with
      | .error e => Except.error e
      | .ok fs =>
        if fs.isEmpty then Except.ok ({ st with files := fs }, StartResult.noFiles)
        else
          match save with
          | none => Except.ok ({ st with files := fs }, StartResult.saveCancelled)
          | some out =>
            Except.ok ({ st with
                          files := fs,
                          processing := true,
                          runDisabled := true,
                          clearDisabled := true },
                       StartResult.started fs out)

/-- `CleanApp._clear` (lines 277-282): resets the folder text and file
list; does not touch `_processing`. -/
def appClear (st : AppState) : AppState :=
  { st with folderVar := "", files := [] }

/-- `CleanApp._pick_folder` (lines 255-264): `none` models a cancelled
directory dialog (immediate return); otherwise the folder text and file
list are replaced.  Does not touch `_processing`. -/
def appPickFolder (st : AppState) (choice : Option String) (lookup : PathLookup) :
    Except String AppState :=
  match choice with
  | none => Except.ok st
  | some folder =>
    match list_supported_files lookup with
    | .error e => Except.error e
    | .ok fs => Except.ok { st with folderVar := folder, files := fs }

/-- `CleanApp._finish` (lines 360-374): clears `_processing` and re-enables
both buttons, for both the Done and the Error terminal event. -/
def appFinish (st : AppState) (_ok : Bool) : AppState :=
  { st with processing := false, runDisabled := false, clearDisabled := false }

/-! ### The polling loop

`CleanApp._poll_worker` (lines 332-358) drains the queue with
`get_nowait` until `queue.Empty`, then separately checks
`self._worker.is_alive()` and re-schedules itself only if the worker
thread is still alive.  The worker (`_worker_main`) puts its events one by
one, the terminal event last, and then its thread terminates.  The model
below is a small-step system over interleavings of the producer (put one
event / terminate) and the consumer (drain the whole queue / aliveness
check): the drain and the check are distinct steps, as in the code, where
a put and the thread exit can fall between them. -/

/-- Consumer control state: `idle` = a poll is scheduled and will drain;
`checking` = the drain ran, the aliveness check is pending; `stopped` =
the poll was not re-scheduled. -/
inductive PollMode where
  | idle
  | checking
  | stopped
deriving DecidableEq, Repr

/-- Joint state of the worker thread, the queue and the polling loop. -/
structure PollState where
  /-- Events the worker has yet to put. -/
  pending : List Event
  /-- Whether the worker thread is still alive. -/
  alive : Bool
  /-- Queue contents, FIFO. -/
  chan : List Event
  /-- Events the consumer has drained, in order. -/
  seen : List Event
  mode : PollMode
deriving DecidableEq, Repr

/-- Interleaved small steps of producer and consumer. -/
inductive PollStep : PollState → PollState → Prop where
  /-- The worker puts its next event on the queue. -/
  | put (s : PollState) (e : Event) (rest : List Event) :
      s.pending = e :: rest → s.alive = true →
      PollStep s { s with pending := rest, chan := s.chan ++ [e] }
  /-- The worker thread terminates, after its last put. -/
  | exitWorker (s : PollState) :
      s.pending = [] → s.alive = true →
      PollStep s { s with alive := false }
  /-- A scheduled poll drains everything currently in the queue. -/
  | drain (s : PollState) :
      s.mode = PollMode.idle →
      PollStep s { s with seen := s.seen ++ s.chan, chan := [],
                          mode := PollMode.checking }
  /-- The `is_alive()` check: re-schedule if alive, else stop polling. -/
  | check (s : PollState) :
      s.mode = PollMode.checking →
      PollStep s { s with mode := if s.alive then PollMode.idle else PollMode.stopped }

/-- Initial state of a run whose worker will produce `evs`. -/
def pollInit (evs : List Event) : PollState :=
  { pending := evs, alive := true, chan := [], seen := [], mode := PollMode.idle }

/-- Reachability under interleaved steps. -/
def PollReachable (evs : List Event) (s : PollState) : Prop :=
  Relation.ReflTransGen PollStep (pollInit evs) s

/-! ### Row statuses as displayed in the file table -/

/-- The statuses named in the row events applying to filename `n`, in
order (`_update_row_status` applications from `("row", ...)` events). -/
def rowEvents (evs : List Event) (n : String) : List String :=
  evs.filterMap fun e =>
    match e with
    | .row m st => if m = n then some st else none
    | _ => none

/-- Whether the run's event sequence ends in a Done event, in which case
`_finish(True, ...)` runs and marks every row "Merged" (lines 369-371). -/
def runEndsDone (evs : List Event) : Bool :=
  match evs.getLast? with
  | some (.done _) => true
  | _ => false

/-- The successive statuses shown in file `n`'s table row over one run:
the initial "Ready" from `_refresh_table`, then the statuses from row
events, then "Merged" for every listed file if the run ends with Done. -/
def rowTrace (env : WorkerEnv) (files : List FPath) (out_pdf : String)
    (n : String) : List String :=
  let evs := worker_main env files out_pdf
  "Ready" :: rowEvents evs n ++
    (if runEndsDone evs ∧ n ∈ files.map FPath.name then ["Merged"] else [])

/-- The position of a status along the documented lifecycle
Ready → Queued/Converting → Converted/Failed → Merged. -/
def statusRank : String → Nat
  | "Ready" => 0
  | "Queued" => 1
  | "Converting" => 1
  | "Converted" => 2
  | "Failed" => 2
  | "Merged" => 3
  | _ => 0

/-! ### Derived per-file descriptions of the pipeline loop -/

/-- What one file contributes to the returned `out_list`: its own path if
it is already a PDF, the converted path on success, nothing on failure.
Independent of the file's position in the list. -/
def fileOutput (env : Backends) (f : FPath) : Option String :=
  if f.suffixLower == ".pdf" then some f.str
  else
    match (convert_office_to_pdf env f (f.withSuffix ".pdf")).2 with
    | .ok _ => some (f.withSuffix ".pdf").str
    | .error _ => none

/-- The path a file would contribute if nothing failed. -/
def intendedOutput (f : FPath) : String :=
  if f.suffixLower == ".pdf" then f.str else (f.withSuffix ".pdf").str

/-- The statuses reported for one file by the pipeline, in order. -/
def fileStatuses (env : Backends) (f : FPath) : List String :=
  if f.suffixLower == ".pdf" then ["Queued"]
  else
    match (convert_office_to_pdf env f (f.withSuffix ".pdf")).2 with
    | .ok _ => ["Converting", "Converted"]
    | .error _ => ["Converting", "Failed"]

/-- The events of the pipeline loop, file by file. -/
def loopEvents (env : Backends) (total : Nat) : Nat → List FPath → List Event
  | _, [] => []
  | d, f :: rest =>
    (processFile env total (d + 1) f).2.1 ++ loopEvents env total (d + 1) rest

/-- The backend calls of the pipeline loop, file by file. -/
def loopCalls (env : Backends) (total : Nat) : Nat → List FPath → List BackendCall
  | _, [] => []
  | d, f :: rest =>
    (processFile env total (d + 1) f).1 ++ loopCalls env total (d + 1) rest

lemma processFile_out (env : Backends) (total d : Nat) (f : FPath) :
    (processFile env total d f).2.2 = fileOutput env f := by
  by_cases h : f.suffixLower = ".pdf"
  · simp [processFile, convertTry, fileOutput, h]
  · rcases hc : convert_office_to_pdf env f (f.withSuffix ".pdf") with ⟨cs, r⟩
    cases r <;> simp [processFile, convertTry, fileOutput, h, hc]

lemma convertLoop_eq (env : Backends) (total : Nat) (d : Nat) (files : List FPath) :
    convertLoop env total d files =
      (loopCalls env total d files, loopEvents env total d files,
       files.filterMap (fileOutput env)) := by
  induction files generalizing d with
  | nil => simp [convertLoop, loopCalls, loopEvents]
  | cons f rest ih =>
    simp only [convertLoop, loopCalls, loopEvents, List.filterMap_cons, ih (d + 1),
      processFile_out]
    cases hf : fileOutput env f <;> simp [hf]

lemma convert_all_eq (env : Backends) (files : List FPath) :
    convert_all_to_pdfs env files =
      (loopCalls env files.length 0 files, loopEvents env files.length 0 files,
       files.filterMap (fileOutput env)) := by
  simp [convert_all_to_pdfs, convertLoop_eq]

lemma fileOutput_eq_some (env : Backends) (f : FPath) (p : String)
    (h : fileOutput env f = some p) : p = intendedOutput f := by
  by_cases hp : f.suffixLower = ".pdf"
  · simp [fileOutput, intendedOutput, hp] at h ⊢
    exact h.symm
  · rcases hr : (convert_office_to_pdf env f (f.withSuffix ".pdf")).2 with e | u
    · simp [fileOutput, hp, hr] at h
    · simp only [fileOutput, hp, hr] at h
      simp only [if_neg, beq_iff_eq, hp, ite_false, Option.some.injEq] at h
      simp [intendedOutput, hp, ← h]

lemma fileOutput_sublist (env : Backends) (files : List FPath) :
    (files.filterMap (fileOutput env)).Sublist (files.map intendedOutput) := by
  induction files with
  | nil => simp
  | cons f rest ih =>
    rw [List.filterMap_cons, List.map_cons]
    cases hf : fileOutput env f with
    | none => exact ih.cons _
    | some p =>
      rw [fileOutput_eq_some env f p hf]
      exact ih.cons₂ _

/-! ### Event-shape lemmas -/

/-- The pipeline callbacks only ever push row and progress events. -/
def isRowOrProgress : Event → Bool
  | .row _ _ => true
  | .progress _ _ _ => true
  | _ => false

lemma processFile_events_shape (env : Backends) (total d : Nat) (f : FPath) :
    ∀ e ∈ (processFile env total d f).2.1, isRowOrProgress e = true := by
  intro e he
  by_cases h : f.suffixLower = ".pdf"
  · simp [processFile, convertTry, h] at he
    rcases he with he | he <;> simp [he, isRowOrProgress]
  · rcases hc : convert_office_to_pdf env f (f.withSuffix ".pdf") with ⟨cs, r⟩
    cases r with
    | error e2 =>
      simp [processFile, convertTry, convertCatch, h, hc] at he
      rcases he with he | he | he | he <;> simp [he, isRowOrProgress]
    | ok u =>
      simp [processFile, convertTry, h, hc] at he
      rcases he with he | he | he <;> simp [he, isRowOrProgress]

lemma loopEvents_shape (env : Backends) (total : Nat) :
    ∀ (d : Nat) (files : List FPath),
      ∀ e ∈ loopEvents env total d files, isRowOrProgress e = true := by
  intro d files
  induction files generalizing d with
  | nil => intro e he; simp [loopEvents] at he
  | cons f rest ih =>
    intro e he
    rw [loopEvents, List.mem_append] at he
    rcases he with he | he
    · exact processFile_events_shape env total (d + 1) f e he
    · exact ih (d + 1) e he

lemma rowOrProgress_not_terminal (e : Event) (h : isRowOrProgress e = true) :
    isTerminal e = false := by
  cases e <;> simp [isRowOrProgress, isTerminal] at h ⊢

lemma loopEvents_countP_terminal (env : Backends) (total d : Nat) (files : List FPath) :
    (loopEvents env total d files).countP isTerminal = 0 := by
  rw [List.countP_eq_zero]
  intro e he
  simp [rowOrProgress_not_terminal e (loopEvents_shape env total d files e he)]

/-- The event sequences `worker_main` can produce, by case. -/
lemma worker_main_cases (env : WorkerEnv) (files : List FPath) (out_pdf : String) :
    (files.filterMap (fileOutput env.backends) = [] ∧
      worker_main env files out_pdf =
        loopEvents env.backends files.length 0 files ++
          [Event.error "No files to merge."]) ∨
    (files.filterMap (fileOutput env.backends) ≠ [] ∧
      env.mergeResult (files.filterMap (fileOutput env.backends)) out_pdf = .ok () ∧
      worker_main env files out_pdf =
        loopEvents env.backends files.length 0 files ++
          [Event.stage ("Merging " ++
             toString (files.filterMap (fileOutput env.backends)).length ++ " PDF(s)…"),
           Event.done out_pdf]) ∨
    (∃ msg, files.filterMap (fileOutput env.backends) ≠ [] ∧
      env.mergeResult (files.filterMap (fileOutput env.backends)) out_pdf =
        .error msg ∧
      worker_main env files out_pdf =
        loopEvents env.backends files.length 0 files ++
          [Event.stage ("Merging " ++
             toString (files.filterMap (fileOutput env.backends)).length ++ " PDF(s)…"),
           Event.error msg]) := by
  unfold worker_main
  rw [convert_all_eq]
  by_cases hemp : files.filterMap (fileOutput env.backends) = []
  · left
    simp [hemp]
  · rcases hm : env.mergeResult (files.filterMap (fileOutput env.backends)) out_pdf
      with msg | u
    · right; right
      exact ⟨msg, hemp, rfl, by simp [List.isEmpty_iff, hemp, hm]⟩
    · right; left
      exact ⟨hemp, rfl, by simp [List.isEmpty_iff, hemp, hm]⟩

lemma rowOrProgress_not_done (e : Event) (h : isRowOrProgress e = true) :
    isDone e = false := by
  cases e <;> simp [isRowOrProgress, isDone] at h ⊢

lemma loopEvents_countP_done (env : Backends) (total d : Nat) (files : List FPath) :
    (loopEvents env total d files).countP isDone = 0 := by
  rw [List.countP_eq_zero]
  intro e he
  simp [rowOrProgress_not_done e (loopEvents_shape env total d files e he)]

lemma getLast?_append_one {α : Type} (l : List α) (a : α) :
    (l ++ [a]).getLast? = some a := by
  rw [List.getLast?_append_cons]
  rfl

lemma getLast?_append_pair {α : Type} (l : List α) (a b : α) :
    (l ++ [a, b]).getLast? = some b := by
  rw [List.getLast?_append_cons]
  rfl

/-! ### Concrete fixtures used by the witnesses -/

/-- A sample PDF file. -/
def fileA : FPath := ⟨"/tmp/in", "a", ".pdf"⟩

/-- A sample Word file. -/
def fileB : FPath := ⟨"/tmp/in", "b", ".docx"⟩

/-- An environment with no conversion backend available at all. -/
def noBackends : Backends where
  comAvailable := false
  osIsNt := false
  hasSoffice := false
  comWordResult := fun _ _ => Except.error "com failed"
  comPptResult := fun _ _ => Except.error "com failed"
  sofficeResult := fun _ _ => Except.error "soffice failed"

/-- A worker environment whose merge always succeeds, over `noBackends`. -/
def envMergeOk : WorkerEnv where
  backends := noBackends
  mergeResult := fun _ _ => Except.ok ()

/-- C1: every run of the worker emits exactly one terminal event and it is
the last event; an empty conversion result yields exactly one Error event
(the `"No files to merge."` one) and no Done event; a successful merge
yields a final Done event carrying the requested output path, and exactly
one Done event. -/
theorem worker_run_terminal_events (env : WorkerEnv) (files : List FPath)
    (out_pdf : String) :
    (worker_main env files out_pdf).countP isTerminal = 1 ∧
    (∃ e, (worker_main env files out_pdf).getLast? = some e ∧ isTerminal e = true) ∧
    ((convert_all_to_pdfs env.backends files).2.2 = [] →
      (worker_main env files out_pdf).getLast? =
        some (Event.error "No files to merge.") ∧
      (worker_main env files out_pdf).countP isDone = 0) ∧
    ((convert_all_to_pdfs env.backends files).2.2 ≠ [] →
      env.mergeResult (convert_all_to_pdfs env.backends files).2.2 out_pdf =
        Except.ok () →
      (worker_main env files out_pdf).getLast? = some (Event.done out_pdf) ∧
      (worker_main env files out_pdf).countP isDone = 1) := by
  have hca := convert_all_eq env.backends files
  rcases worker_main_cases env files out_pdf with
    ⟨hemp, hw⟩ | ⟨hne, hm, hw⟩ | ⟨msg, hne, hm, hw⟩
  · refine ⟨?_, ?_, ?_, ?_⟩
    · rw [hw, List.countP_append, loopEvents_countP_terminal]
      simp [isTerminal]
    · exact ⟨Event.error "No files to merge.", by rw [hw]; exact getLast?_append_one _ _,
        by simp [isTerminal]⟩
    · intro _
      refine ⟨by rw [hw]; exact getLast?_append_one _ _, ?_⟩
      rw [hw, List.countP_append, loopEvents_countP_done]
      simp [isDone]
    · intro hne _
      rw [hca] at hne
      exact (hne hemp).elim
  · refine ⟨?_, ?_, ?_, ?_⟩
    · rw [hw, List.countP_append, loopEvents_countP_terminal]
      simp [isTerminal]
    · exact ⟨Event.done out_pdf, by rw [hw]; exact getLast?_append_pair _ _ _,
        by simp [isTerminal]⟩
    · intro hempty
      rw [hca] at hempty
      exact (hne hempty).elim
    · intro _ _
      refine ⟨by rw [hw]; exact getLast?_append_pair _ _ _, ?_⟩
      rw [hw, List.countP_append, loopEvents_countP_done]
      simp [isDone]
  · refine ⟨?_, ?_, ?_, ?_⟩
    · rw [hw, List.countP_append, loopEvents_countP_terminal]
      simp [isTerminal]
    · exact ⟨Event.error msg, by rw [hw]; exact getLast?_append_pair _ _ _,
        by simp [isTerminal]⟩
    · intro hempty
      rw [hca] at hempty
      exact (hne hempty).elim
    · intro _ hok
      rw [hca] at hok
      rw [hm] at hok
      cases hok

/-- Witness for C1 at a one-PDF run with a succeeding merge. -/
theorem worker_run_terminal_events_witness :
    (worker_main envMergeOk [fileA] "out.pdf").getLast? =
      some (Event.done "out.pdf") ∧
    (worker_main envMergeOk [fileA] "out.pdf").countP isDone = 1 :=
  (worker_run_terminal_events envMergeOk [fileA] "out.pdf").2.2.2
    (by decide) rfl

/-! ### Per-file membership lemmas -/

lemma processFile_first_row (env : Backends) (total d : Nat) (f : FPath) :
    Event.row f.name (if f.suffixLower == ".pdf" then "Queued" else "Converting") ∈
      (processFile env total d f).2.1 := by
  by_cases h : f.suffixLower = ".pdf"
  · simp [processFile, convertTry, h]
  · rcases hc : convert_office_to_pdf env f (f.withSuffix ".pdf") with ⟨cs, r⟩
    cases r <;> simp [processFile, convertTry, convertCatch, h, hc]

lemma processFile_failed_mem (env : Backends) (total d : Nat) (f : FPath)
    (e : String) (hnp : f.suffixLower ≠ ".pdf")
    (herr : (convert_office_to_pdf env f (f.withSuffix ".pdf")).2 = Except.error e) :
    Event.row f.name "Failed" ∈ (processFile env total d f).2.1 := by
  rcases hc : convert_office_to_pdf env f (f.withSuffix ".pdf") with ⟨cs, r⟩
  rw [hc] at herr
  cases r with
  | error e2 => simp [processFile, convertTry, convertCatch, hnp, hc]
  | ok u => cases herr

lemma loopEvents_mem (env : Backends) (total : Nat) (ev : Event) (f : FPath)
    (hev : ∀ d, ev ∈ (processFile env total d f).2.1) :
    ∀ (d : Nat) (files : List FPath), f ∈ files →
      ev ∈ loopEvents env total d files := by
  intro d files
  induction files generalizing d with
  | nil => intro hf; cases hf
  | cons g rest ih =>
    intro hf
    rw [loopEvents, List.mem_append]
    rcases List.mem_cons.mp hf with h | h
    · subst h; exact Or.inl (hev (d + 1))
    · exact Or.inr (ih (d + 1) h)

lemma fileOutput_pdf (env : Backends) (f : FPath) (h : f.suffixLower = ".pdf") :
    fileOutput env f = some f.str := by
  simp [fileOutput, h]

lemma processFile_calls_pdf (env : Backends) (total d : Nat) (f : FPath)
    (h : f.suffixLower = ".pdf") : (processFile env total d f).1 = [] := by
  simp [processFile, convertTry, h]

/-- C2: a converter failure on one file does not abort the pipeline: the
returned list is the per-file contributions of the whole input (so the rest
is still processed), the failing file contributes nothing, the result is a
subsequence of the per-file intended outputs, the failing file is marked
Failed, every file still gets its initial status event, and if every file
fails the result is empty. -/
theorem convert_all_failure_isolation (env : Backends) (files : List FPath)
    (f : FPath) (e : String) (hf : f ∈ files) (hnp : f.suffixLower ≠ ".pdf")
    (herr : (convert_office_to_pdf env f (f.withSuffix ".pdf")).2 = Except.error e) :
    (convert_all_to_pdfs env files).2.2 = files.filterMap (fileOutput env) ∧
    fileOutput env f = none ∧
    ((convert_all_to_pdfs env files).2.2).Sublist (files.map intendedOutput) ∧
    Event.row f.name "Failed" ∈ (convert_all_to_pdfs env files).2.1 ∧
    (∀ g ∈ files,
      Event.row g.name (if g.suffixLower == ".pdf" then "Queued" else "Converting") ∈
        (convert_all_to_pdfs env files).2.1) ∧
    ((∀ g ∈ files, fileOutput env g = none) →
      (convert_all_to_pdfs env files).2.2 = []) := by
  have hca := convert_all_eq env files
  refine ⟨by rw [hca], ?_, ?_, ?_, ?_, ?_⟩
  · simp [fileOutput, hnp, herr]
  · rw [hca]
    exact fileOutput_sublist env files
  · rw [hca]
    exact loopEvents_mem env files.length _ f
      (fun d => processFile_failed_mem env files.length d f e hnp herr) 0 files hf
  · intro g hg
    rw [hca]
    exact loopEvents_mem env files.length _ g
      (fun d => processFile_first_row env files.length d g) 0 files hg
  · intro hall
    rw [hca]
    simp only [List.filterMap_eq_nil_iff]
    exact hall

/-- Witness for C2: a Word file with no converter available, followed by a
PDF; the Word file is dropped, the PDF survives. -/
theorem convert_all_failure_isolation_witness :
    fileOutput noBackends fileB = none ∧
    Event.row "b.docx" "Failed" ∈ (convert_all_to_pdfs noBackends [fileB, fileA]).2.1 ∧
    (convert_all_to_pdfs noBackends [fileB, fileA]).2.2 = ["/tmp/in/a.pdf"] := by
  have h := convert_all_failure_isolation noBackends [fileB, fileA] fileB
    "No converter available. Install Microsoft Office (Windows) or LibreOffice."
    (by decide) (by decide) rfl
  exact ⟨h.2.1, h.2.2.2.1, by decide⟩

lemma filterMap_fileOutput_all_pdf (env : Backends) :
    ∀ fs : List FPath, (∀ f ∈ fs, f.suffixLower = ".pdf") →
      fs.filterMap (fileOutput env) = fs.map FPath.str := by
  intro fs
  induction fs with
  | nil => intro _; rfl
  | cons f rest ih =>
    intro hfs
    simp only [List.filterMap_cons,
      fileOutput_pdf env f (hfs f (List.mem_cons_self f rest)), List.map_cons]
    rw [ih (fun g hg => hfs g (List.mem_cons_of_mem f hg))]

lemma loopCalls_nil_of_pdf (env : Backends) (total : Nat) :
    ∀ (d : Nat) (fs : List FPath), (∀ f ∈ fs, f.suffixLower = ".pdf") →
      loopCalls env total d fs = [] := by
  intro d fs
  induction fs generalizing d with
  | nil => intro _; rfl
  | cons f rest ih =>
    intro hfs
    rw [loopCalls,
      processFile_calls_pdf env total (d + 1) f (hfs f (List.mem_cons_self f rest)),
      List.nil_append]
    exact ih (d + 1) (fun g hg => hfs g (List.mem_cons_of_mem f hg))

/-- C4: on an all-PDF input list `convert_all_to_pdfs` returns exactly the
input paths in order, makes no backend call, and reports each file Queued. -/
theorem convert_all_pdf_passthrough (env : Backends) (files : List FPath)
    (hall : ∀ f ∈ files, f.suffixLower = ".pdf") :
    (convert_all_to_pdfs env files).2.2 = files.map FPath.str ∧
    (convert_all_to_pdfs env files).1 = [] ∧
    ∀ f ∈ files, Event.row f.name "Queued" ∈ (convert_all_to_pdfs env files).2.1 := by
  have hca := convert_all_eq env files
  refine ⟨?_, ?_, ?_⟩
  · rw [hca]
    exact filterMap_fileOutput_all_pdf env files hall
  · rw [hca]
    exact loopCalls_nil_of_pdf env files.length 0 files hall
  · intro f hf
    rw [hca]
    have := loopEvents_mem env files.length _ f
      (fun d => processFile_first_row env files.length d f) 0 files hf
    simpa [hall f hf] using this

/-- Witness for C4: two PDF files pass through unchanged, in order, with no
backend call. -/
theorem convert_all_pdf_passthrough_witness :
    (convert_all_to_pdfs noBackends [fileA, ⟨"/tmp/in", "c", ".PDF"⟩]).2.2 =
      ["/tmp/in/a.pdf", "/tmp/in/c.PDF"] ∧
    (convert_all_to_pdfs noBackends [fileA, ⟨"/tmp/in", "c", ".PDF"⟩]).1 = [] := by
  have h := convert_all_pdf_passthrough noBackends [fileA, ⟨"/tmp/in", "c", ".PDF"⟩]
    (by decide)
  exact ⟨by rw [h.1]; rfl, h.2.1⟩

/-- C10: `convert_all_to_pdfs` is total in the converter behaviour: for
every environment it returns the per-file calls, events and outputs of the
whole input list (so no file's exception escapes or stops the loop), and an
exception raised inside one file's `try` body is confined to appending that
file's Failed row event and Failed progress message and contributing no
output. -/
theorem convert_all_total (env : Backends) (files : List FPath) :
    convert_all_to_pdfs env files =
      (loopCalls env files.length 0 files, loopEvents env files.length 0 files,
       files.filterMap (fileOutput env)) ∧
    ∀ (total d : Nat) (f : FPath) (e : String),
      (convertTry env total d f).2.2 = Except.error e →
      (processFile env total d f).2.1 =
        (convertTry env total d f).2.1 ++ convertCatch total d f e ∧
      (processFile env total d f).2.2 = none := by
  refine ⟨convert_all_eq env files, ?_⟩
  intro total d f e herr
  rcases hc : convertTry env total d f with ⟨cs, evs, r⟩
  rw [hc] at herr
  cases r with
  | error e2 =>
    cases herr
    simp [processFile, hc]
  | ok p => cases herr

/-- Witness for C10 at a failing Word file. -/
theorem convert_all_total_witness :
    (convert_all_to_pdfs noBackends [fileB]).2.2 = [] ∧
    (processFile noBackends 1 1 fileB).2.2 = none := by
  have h := convert_all_total noBackends [fileB]
  have h2 := h.2 1 1 fileB
    "No converter available. Install Microsoft Office (Windows) or LibreOffice." rfl
  exact ⟨by rw [h.1]; rfl, h2.2⟩

/-- C8: for a non-PDF supported file the backends are tried in a fixed
preference order — COM automation first when available on Windows, then
LibreOffice, the fallback used only when the previous backend failed; with
no backend available the call fails with the `"No converter available"`
message; and inside the pipeline such a failure marks the file Failed and
does not abort the run (the loop still produces the per-file decomposition
for the whole list). -/
theorem converter_preference_order (env : Backends) (src out_pdf : FPath)
    (hoff : src.suffixLower ∈ [".doc", ".docx", ".ppt", ".pptx"]) :
    ((env.comAvailable && env.osIsNt) = true →
      ∀ u, (comBackend env src out_pdf).2 = Except.ok u →
      convert_office_to_pdf env src out_pdf =
        ([(comBackend env src out_pdf).1], Except.ok u)) ∧
    ((env.comAvailable && env.osIsNt) = true →
      ∀ e, (comBackend env src out_pdf).2 = Except.error e →
      env.hasSoffice = true →
      convert_office_to_pdf env src out_pdf =
        ([(comBackend env src out_pdf).1, BackendCall.soffice src.str out_pdf.str],
         env.sofficeResult src.str out_pdf.str)) ∧
    ((env.comAvailable && env.osIsNt) = false →
      env.hasSoffice = true →
      convert_office_to_pdf env src out_pdf =
        ([BackendCall.soffice src.str out_pdf.str],
         env.sofficeResult src.str out_pdf.str)) ∧
    (env.hasSoffice = false →
      ((env.comAvailable && env.osIsNt) = false ∨
        (∃ e, (comBackend env src out_pdf).2 = Except.error e)) →
      (convert_office_to_pdf env src out_pdf).2 =
        Except.error
          "No converter available. Install Microsoft Office (Windows) or LibreOffice.") ∧
    (∀ (total d : Nat) (e : String),
      src.suffixLower ≠ ".pdf" →
      (convert_office_to_pdf env src (src.withSuffix ".pdf")).2 = Except.error e →
      (processFile env total d src).2.2 = none ∧
      Event.row src.name "Failed" ∈ (processFile env total d src).2.1 ∧
      ∀ fs : List FPath,
        (convert_all_to_pdfs env fs).2.2 = fs.filterMap (fileOutput env)) := by
  refine ⟨?_, ?_, ?_, ?_, ?_⟩
  · intro hcom u hok
    simp only [convert_office_to_pdf, if_pos hoff, hcom, if_true, hok]
  · intro hcom e herr hso
    simp only [convert_office_to_pdf, if_pos hoff, hcom, if_true, herr,
      sofficeFallback, hso]
  · intro hcom hso
    simp only [convert_office_to_pdf, if_pos hoff, hcom, sofficeFallback, hso,
      Bool.false_eq_true, if_false, if_true]
  · intro hso hcase
    rcases hcase with hcom | ⟨e, herr⟩
    · simp only [convert_office_to_pdf, if_pos hoff, hcom, sofficeFallback, hso,
        Bool.false_eq_true, if_false]
    · by_cases hcom : (env.comAvailable && env.osIsNt) = true
      · simp only [convert_office_to_pdf, if_pos hoff, hcom, if_true, herr,
          sofficeFallback, hso, Bool.false_eq_true, if_false]
      · simp only [convert_office_to_pdf, if_pos hoff, hcom, sofficeFallback, hso,
          Bool.false_eq_true, if_false]
  · intro total d e hnp herr
    refine ⟨?_, processFile_failed_mem env total d src e hnp herr, ?_⟩
    · rw [processFile_out]
      simp [fileOutput, hnp, herr]
    · intro fs
      rw [convert_all_eq]

/-- Witness for C8: a Word file with COM available but failing, LibreOffice
present and succeeding: both backends are called, in that order. -/
theorem converter_preference_order_witness :
    convert_office_to_pdf
        ⟨true, true, true,
         fun _ _ => Except.error "word crashed",
         fun _ _ => Except.error "word crashed",
         fun _ _ => Except.ok ()⟩ fileB (fileB.withSuffix ".pdf") =
      ([BackendCall.comWord "/tmp/in/b.docx" "/tmp/in/b.pdf",
        BackendCall.soffice "/tmp/in/b.docx" "/tmp/in/b.pdf"],
       Except.ok ()) := by
  have h := (converter_preference_order
    ⟨true, true, true,
     fun _ _ => Except.error "word crashed",
     fun _ _ => Except.error "word crashed",
     fun _ _ => Except.ok ()⟩ fileB (fileB.withSuffix ".pdf") (by decide)).2.1
  have h2 := h rfl "word crashed" rfl rfl
  rw [h2]
  rfl

/-- C5: on a directory, `list_supported_files` returns exactly the regular
files directly inside it whose lowercase extension is supported — a path is
in the result iff it is a direct file entry with supported extension (so
nothing from subdirectories, and no other files); a missing path or a
non-directory raises an error to the caller instead of returning a list. -/
theorem list_supported_files_spec :
    (∀ (entries : List DirEntry) (p : FPath),
      ∃ l, list_supported_files (PathLookup.dirEntries entries) = Except.ok l ∧
        (p ∈ l ↔ DirEntry.file p ∈ entries ∧ p.suffixLower ∈ SUPPORTED_EXTS)) ∧
    list_supported_files PathLookup.missing = Except.error "FileNotFoundError" ∧
    list_supported_files PathLookup.notADir = Except.error "NotADirectoryError" := by
  refine ⟨?_, rfl, rfl⟩
  intro entries p
  refine ⟨_, rfl, ?_⟩
  rw [List.mem_filterMap]
  constructor
  · rintro ⟨a, ha, hpick⟩
    cases a with
    | file q =>
      by_cases hq : q.suffixLower ∈ SUPPORTED_EXTS
      · simp only [hq, if_pos, Option.some.injEq] at hpick
        subst hpick
        exact ⟨ha, hq⟩
      · simp [hq] at hpick
    | subdir nm contents => simp at hpick
  · rintro ⟨hmem, hsup⟩
    exact ⟨DirEntry.file p, hmem, by simp [hsup]⟩

/-- Witness for C5: a directory holding a Word file, a text file and a
subdirectory that itself holds a PDF: only the Word file is listed. -/
theorem list_supported_files_spec_witness :
    list_supported_files
        (PathLookup.dirEntries
          [DirEntry.file fileB,
           DirEntry.file ⟨"/tmp/in", "notes", ".txt"⟩,
           DirEntry.subdir "sub" [DirEntry.file fileA]]) =
      Except.ok [fileB] ∧
    (fileA ∈ [fileB] ↔
      DirEntry.file fileA ∈
          [DirEntry.file fileB,
           DirEntry.file ⟨"/tmp/in", "notes", ".txt"⟩,
           DirEntry.subdir "sub" [DirEntry.file fileA]] ∧
        fileA.suffixLower ∈ SUPPORTED_EXTS) := by
  obtain ⟨l, hl, hiff⟩ := list_supported_files_spec.1
    [DirEntry.file fileB,
     DirEntry.file ⟨"/tmp/in", "notes", ".txt"⟩,
     DirEntry.subdir "sub" [DirEntry.file fileA]] fileA
  have hlv : l = [fileB] := by
    have := hl
    rw [show list_supported_files
        (PathLookup.dirEntries
          [DirEntry.file fileB,
           DirEntry.file ⟨"/tmp/in", "notes", ".txt"⟩,
           DirEntry.subdir "sub" [DirEntry.file fileA]]) =
        Except.ok [fileB] from rfl] at this
    exact (Except.ok.injEq _ _ ▸ congrArg id this) ▸ rfl
  constructor
  · rfl
  · rw [← hlv]
    exact hiff

/-- C6: at most one background job: with `_processing` true the start
action is a no-op that changes nothing; whenever a worker is started the
flag is true in the new state and was false before; `_clear` and
`_pick_folder` never touch the flag, and only `_finish` clears it. -/
theorem single_job_invariant :
    (∀ (lookup : PathLookup) (st : AppState) (save : Option String),
      st.processing = true →
      appStart lookup st save = Except.ok (st, StartResult.noop)) ∧
    (∀ (lookup : PathLookup) (st st2 : AppState) (save : Option String)
        (fs : List FPath) (out : String),
      appStart lookup st save = Except.ok (st2, StartResult.started fs out) →
      st2.processing = true ∧ st.processing = false) ∧
    (∀ st : AppState, (appClear st).processing = st.processing) ∧
    (∀ (st st2 : AppState) (choice : Option String) (lookup : PathLookup),
      appPickFolder st choice lookup = Except.ok st2 →
      st2.processing = st.processing) ∧
    (∀ (st : AppState) (b : Bool), (appFinish st b).processing = false) := by
  refine ⟨?_, ?_, fun st => rfl, ?_, fun st b => rfl⟩
  · intro lookup st save hp
    rw [appStart, if_pos hp]
  · intro lookup st st2 save fs out h
    simp only [appStart] at h
    by_cases hp : st.processing = true
    · rw [if_pos hp] at h
      simp at h
    · rw [if_neg hp] at h
      simp only [Bool.not_eq_true] at hp
      refine ⟨?_, hp⟩
      by_cases hc : pyStrip st.folderVar = "" ∨ lookup.existsOnDisk = false
      · rw [if_pos hc] at h
        simp at h
      · rw [if_neg hc] at h
        rcases hls : list_supported_files lookup with e | fs2
        · rw [hls] at h
          cases h
        · rw [hls] at h
          dsimp only [] at h
          by_cases he : fs2.isEmpty = true
          · rw [if_pos he] at h
            simp at h
          · rw [if_neg he] at h
            cases save with
            | none => simp at h
            | some o =>
              simp only [Except.ok.injEq, Prod.mk.injEq] at h
              rw [← h.1]
  · intro st st2 choice lookup h
    cases choice with
    | none =>
      simp only [appPickFolder, Except.ok.injEq] at h
      rw [← h]
    | some folder =>
      rw [appPickFolder] at h
      split at h
      · cases h
      · simp only [Except.ok.injEq] at h
        rw [← h]

/-- Witness for C6: starting while processing is a no-op; a real start
sets the flag. -/
theorem single_job_invariant_witness :
    appStart (PathLookup.dirEntries [DirEntry.file fileA])
        ⟨true, "/tmp/in", [], true, true⟩ (some "out.pdf") =
      Except.ok (⟨true, "/tmp/in", [], true, true⟩, StartResult.noop) ∧
    (appFinish ⟨true, "/tmp/in", [fileA], true, true⟩ true).processing = false := by
  refine ⟨single_job_invariant.1 _ _ _ rfl, single_job_invariant.2.2.2.2 _ _⟩

/-- C7 (amended): a missing path (or blank folder text) is rejected with
the user-facing "Invalid folder" dialog and no run starts; a path that
exists but is not a directory also never starts a run, but the start action
raises `NotADirectoryError` out of the callback instead of showing the
dialog. -/
theorem start_rejects_bad_folder (lookup : PathLookup) (st : AppState)
    (save : Option String) (hp : st.processing = false) :
    ((pyStrip st.folderVar = "" ∨ lookup = PathLookup.missing) →
      appStart lookup st save = Except.ok (st, StartResult.invalidFolder)) ∧
    (lookup = PathLookup.notADir → pyStrip st.folderVar ≠ "" →
      appStart lookup st save = Except.error "NotADirectoryError") ∧
    ((lookup = PathLookup.missing ∨ lookup = PathLookup.notADir) →
      ∀ (st2 : AppState) (fs : List FPath) (out : String),
        appStart lookup st save ≠ Except.ok (st2, StartResult.started fs out)) := by
  have hp2 : ¬st.processing = true := by simp [hp]
  refine ⟨?_, ?_, ?_⟩
  · intro hbad
    simp only [appStart]
    rw [if_neg hp2]
    have hcond : pyStrip st.folderVar = "" ∨ lookup.existsOnDisk = false := by
      rcases hbad with h | h
      · exact Or.inl h
      · exact Or.inr (by rw [h]; rfl)
    rw [if_pos hcond]
  · intro hnd htrim
    subst hnd
    simp only [appStart]
    rw [if_neg hp2]
    rw [if_neg (by simp [htrim, PathLookup.existsOnDisk])]
    rfl
  · intro hbad st2 fs out h
    rcases hbad with hnd | hnd <;> subst hnd
    · simp only [appStart] at h
      rw [if_neg hp2,
        if_pos (Or.inr (show PathLookup.existsOnDisk PathLookup.missing = false from rfl))] at h
      simp at h
    · simp only [appStart] at h
      rw [if_neg hp2] at h
      by_cases hc : pyStrip st.folderVar = "" ∨ PathLookup.existsOnDisk PathLookup.notADir = false
      · rw [if_pos hc] at h
        simp at h
      · rw [if_neg hc] at h
        cases h

/-- Witness for C7 (amended) at a missing directory. -/
theorem start_rejects_bad_folder_witness :
    appStart PathLookup.missing ⟨false, "/tmp/gone", [], false, false⟩
        (some "out.pdf") =
      Except.ok (⟨false, "/tmp/gone", [], false, false⟩, StartResult.invalidFolder) :=
  (start_rejects_bad_folder PathLookup.missing
    ⟨false, "/tmp/gone", [], false, false⟩ (some "out.pdf") rfl).1
    (Or.inr rfl)

/-- Counterexample to C7 as stated: for a path that exists but is not a
directory, `_start` does not show the error dialog — `list_supported_files`
raises `NotADirectoryError` out of the callback (no `StartResult` at all),
so the "rejected with a user-facing error" half of the claim fails. -/
theorem start_notadir_counterexample :
    appStart PathLookup.notADir ⟨false, "/tmp/afile.txt", [], false, false⟩
        (some "out.pdf") =
      Except.error "NotADirectoryError" ∧
    (appStart PathLookup.notADir ⟨false, "/tmp/afile.txt", [], false, false⟩
        (some "out.pdf")).isOk = false := by
  exact ⟨rfl, rfl⟩

/-! ### Row-status traces -/

/-- What the pipeline reports for the row named `n`, given the file list. -/
def rowStatusesOf (env : Backends) (files : List FPath) (n : String) : List String :=
  match files.find? (fun f => f.name == n) with
  | some f => fileStatuses env f
  | none => []

lemma rowEvents_append (a b : List Event) (n : String) :
    rowEvents (a ++ b) n = rowEvents a n ++ rowEvents b n := by
  simp [rowEvents, List.filterMap_append]

lemma rowEvents_processFile_self (env : Backends) (total d : Nat) (f : FPath) :
    rowEvents (processFile env total d f).2.1 f.name = fileStatuses env f := by
  by_cases h : f.suffixLower = ".pdf"
  · simp [processFile, convertTry, rowEvents, fileStatuses, h]
  · rcases hc : convert_office_to_pdf env f (f.withSuffix ".pdf") with ⟨cs, r⟩
    cases r <;>
      simp [processFile, convertTry, convertCatch, rowEvents, fileStatuses, h, hc]

lemma rowEvents_processFile_other (env : Backends) (total d : Nat) (f : FPath)
    (n : String) (hne : n ≠ f.name) :
    rowEvents (processFile env total d f).2.1 n = [] := by
  by_cases h : f.suffixLower = ".pdf"
  · simp [processFile, convertTry, rowEvents, h, Ne.symm hne]
  · rcases hc : convert_office_to_pdf env f (f.withSuffix ".pdf") with ⟨cs, r⟩
    cases r <;>
      simp [processFile, convertTry, convertCatch, rowEvents, h, hc, Ne.symm hne]

lemma rowEvents_loopEvents_not_mem (env : Backends) (total : Nat) (n : String) :
    ∀ (d : Nat) (files : List FPath), n ∉ files.map FPath.name →
      rowEvents (loopEvents env total d files) n = [] := by
  intro d files
  induction files generalizing d with
  | nil => intro _; rfl
  | cons f rest ih =>
    intro hn
    rw [List.map_cons, List.mem_cons] at hn
    push_neg at hn
    rw [loopEvents, rowEvents_append,
      rowEvents_processFile_other env total (d + 1) f n hn.1, List.nil_append]
    exact ih (d + 1) hn.2

lemma rowEvents_loopEvents (env : Backends) (total : Nat) (n : String) :
    ∀ (d : Nat) (files : List FPath), (files.map FPath.name).Nodup →
      rowEvents (loopEvents env total d files) n = rowStatusesOf env files n := by
  intro d files
  induction files generalizing d with
  | nil => intro _; rfl
  | cons f rest ih =>
    intro hnd
    rw [List.map_cons, List.nodup_cons] at hnd
    rw [loopEvents, rowEvents_append]
    by_cases hn : f.name = n
    · subst hn
      rw [rowEvents_processFile_self,
        rowEvents_loopEvents_not_mem env total f.name (d + 1) rest hnd.1,
        List.append_nil]
      simp [rowStatusesOf]
    · rw [rowEvents_processFile_other env total (d + 1) f n (Ne.symm hn),
        List.nil_append, ih (d + 1) hnd.2]
      have hb : (f.name == n) = false := by simp [hn]
      simp [rowStatusesOf, List.find?_cons, hb]

lemma rowEvents_single_not_row (e : Event) (n : String)
    (h : ∀ fn st, e ≠ Event.row fn st) : rowEvents [e] n = [] := by
  cases e with
  | row fn st => exact absurd rfl (h fn st)
  | progress a b c => rfl
  | stage m => rfl
  | done p => rfl
  | error m => rfl

lemma rowEvents_worker (env : WorkerEnv) (files : List FPath) (out_pdf : String)
    (n : String) :
    rowEvents (worker_main env files out_pdf) n =
      rowEvents (loopEvents env.backends files.length 0 files) n := by
  rcases worker_main_cases env files out_pdf with
    ⟨_, hw⟩ | ⟨_, _, hw⟩ | ⟨msg, _, _, hw⟩ <;>
    rw [hw, rowEvents_append] <;> simp [rowEvents]

lemma fileStatuses_cases (env : Backends) (f : FPath) :
    fileStatuses env f = ["Queued"] ∨
    fileStatuses env f = ["Converting", "Converted"] ∨
    fileStatuses env f = ["Converting", "Failed"] := by
  by_cases h : f.suffixLower = ".pdf"
  · exact Or.inl (by simp [fileStatuses, h])
  · rcases hc : (convert_office_to_pdf env f (f.withSuffix ".pdf")).2 with e | u
    · exact Or.inr (Or.inr (by simp [fileStatuses, h, hc]))
    · exact Or.inr (Or.inl (by simp [fileStatuses, h, hc]))

lemma rowStatusesOf_cases (env : Backends) (files : List FPath) (n : String) :
    rowStatusesOf env files n = [] ∨
    rowStatusesOf env files n = ["Queued"] ∨
    rowStatusesOf env files n = ["Converting", "Converted"] ∨
    rowStatusesOf env files n = ["Converting", "Failed"] := by
  rw [rowStatusesOf]
  cases hf : files.find? (fun f => f.name == n) with
  | none => exact Or.inl rfl
  | some f => exact Or.inr (fileStatuses_cases env f)

/-- C3 (amended): within one run every row's status sequence moves only
forward along Ready → Queued/Converting → Converted/Failed → Merged, with
Merged applied (to every row, the Failed ones included) only when the run
ends with Done; consequently after a Done run in which one file failed
conversion, that file's row shows Merged — not Failed. -/
theorem row_status_monotone (env : WorkerEnv) (files : List FPath)
    (out_pdf : String) (n : String) (hnd : (files.map FPath.name).Nodup) :
    List.Chain' (fun a b => statusRank a ≤ statusRank b)
      (rowTrace env files out_pdf n) ∧
    (runEndsDone (worker_main env files out_pdf) = true →
      ∀ f ∈ files, (rowTrace env files out_pdf f.name).getLast? = some "Merged") := by
  constructor
  · show List.Chain' _
      ("Ready" :: rowEvents (worker_main env files out_pdf) n ++ _)
    rw [rowEvents_worker, rowEvents_loopEvents env.backends files.length n 0 files hnd]
    rcases rowStatusesOf_cases env.backends files n with h | h | h | h <;> rw [h] <;>
      rcases ite_eq_or_eq (runEndsDone (worker_main env files out_pdf) = true ∧
          n ∈ files.map FPath.name) ["Merged"] [] with hM | hM <;>
      rw [hM] <;> simp [List.chain'_cons, statusRank]
  · intro hdone f hf
    show (("Ready" :: rowEvents (worker_main env files out_pdf) f.name ++ _)).getLast?
      = some "Merged"
    rw [if_pos ⟨hdone, List.mem_map_of_mem FPath.name hf⟩]
    rw [show "Ready" :: rowEvents (worker_main env files out_pdf) f.name ++ ["Merged"] =
      ("Ready" :: rowEvents (worker_main env files out_pdf) f.name) ++ ["Merged"] from rfl]
    exact getLast?_append_one _ _

/-- Witness for C3 (amended): the two-file run with one failure. -/
theorem row_status_monotone_witness :
    List.Chain' (fun a b => statusRank a ≤ statusRank b)
      (rowTrace envMergeOk [fileA, fileB] "out.pdf" "b.docx") ∧
    (rowTrace envMergeOk [fileA, fileB] "out.pdf" "b.docx").getLast? =
      some "Merged" := by
  have h := row_status_monotone envMergeOk [fileA, fileB] "out.pdf" "b.docx"
    (by decide)
  refine ⟨h.1, ?_⟩
  have h2 := h.2 (by decide) fileB (by decide)
  exact h2

/-- Counterexample to C3 as stated: a run that ends with Done in which
`b.docx` failed conversion; `_finish` marks every row "Merged"
(lines 369-371 of `main.py`), so the failed file's row shows Merged, not the
claimed Failed. -/
theorem row_status_failed_overwritten :
    runEndsDone (worker_main envMergeOk [fileA, fileB] "out.pdf") = true ∧
    rowTrace envMergeOk [fileA, fileB] "out.pdf" "b.docx" =
      ["Ready", "Converting", "Failed", "Merged"] ∧
    (rowTrace envMergeOk [fileA, fileB] "out.pdf" "b.docx").getLast? ≠
      some "Failed" := by
  refine ⟨by decide, by decide, by decide⟩

/-! ### Polling-loop properties -/

lemma worker_has_terminal (env : WorkerEnv) (files : List FPath) (out_pdf : String) :
    ∃ e, isTerminal e = true ∧ e ∈ worker_main env files out_pdf := by
  rcases worker_main_cases env files out_pdf with
    ⟨_, hw⟩ | ⟨_, _, hw⟩ | ⟨msg, _, _, hw⟩
  · exact ⟨Event.error "No files to merge.", rfl, by rw [hw]; simp⟩
  · exact ⟨Event.done out_pdf, rfl, by rw [hw]; simp⟩
  · exact ⟨Event.error msg, rfl, by rw [hw]; simp⟩

lemma poll_invariant (evs : List Event) (s : PollState)
    (h : PollReachable evs s) :
    s.seen ++ s.chan ++ s.pending = evs ∧
    (s.alive = false → s.pending = []) ∧
    (s.mode = PollMode.stopped → s.alive = false) := by
  induction h with
  | refl => simp [pollInit]
  | tail hr step ih =>
    rename_i sb sc
    cases step with
    | put e rest hpend halive =>
      refine ⟨?_, ?_, ?_⟩
      · rw [← ih.1, hpend]
        simp
      · intro hdead
        rw [show sb.alive = false from hdead] at halive
        cases halive
      · intro hstop
        rw [ih.2.2 hstop] at halive
        cases halive
    | exitWorker hpend halive =>
      exact ⟨ih.1, fun _ => hpend, fun _ => rfl⟩
    | drain hmode =>
      refine ⟨?_, ih.2.1, ?_⟩
      · rw [← ih.1]
        simp
      · intro hstop
        cases hstop
    | check hmode =>
      refine ⟨ih.1, ih.2.1, ?_⟩
      intro hstop
      have hstop2 : (if sb.alive then PollMode.idle else PollMode.stopped) =
          PollMode.stopped := hstop
      by_cases ha : sb.alive = true
      · simp [ha] at hstop2
      · simpa using ha

/-- C9 (amended): the polling loop stops only once the worker thread has
died (and then all events have been produced); any drain step taken after
the worker's death observes the complete event sequence of the run — the
terminal event included — and the aliveness check that follows such a drain
stops the polling, so polling does not continue indefinitely; but stopping
is keyed to worker death, not to having observed the terminal event (see
the counterexample). -/
theorem poll_stop_amended (env : WorkerEnv) (files : List FPath)
    (out_pdf : String) (s : PollState)
    (h : PollReachable (worker_main env files out_pdf) s) :
    (s.mode = PollMode.stopped → s.alive = false ∧ s.pending = []) ∧
    (s.alive = false → s.mode = PollMode.idle →
      ∀ s2, PollStep s s2 →
        s2.seen = worker_main env files out_pdf ∧
        s2.mode = PollMode.checking ∧
        ∃ e, isTerminal e = true ∧ e ∈ s2.seen) ∧
    (s.alive = false → s.mode = PollMode.checking →
      ∀ s2, PollStep s s2 → s2.mode = PollMode.stopped) := by
  have hinv := poll_invariant (worker_main env files out_pdf) s h
  refine ⟨?_, ?_, ?_⟩
  · intro hstop
    exact ⟨hinv.2.2 hstop, hinv.2.1 (hinv.2.2 hstop)⟩
  · intro hdead hidle s2 hstep
    cases hstep with
    | put e rest hpend halive =>
      rw [hdead] at halive
      cases halive
    | exitWorker hpend halive =>
      rw [hdead] at halive
      cases halive
    | drain hmode =>
      have hseen : s.seen ++ s.chan = worker_main env files out_pdf := by
        have h1 := hinv.1
        rw [hinv.2.1 hdead, List.append_nil] at h1
        exact h1
      refine ⟨hseen, rfl, ?_⟩
      obtain ⟨e, he, hmem⟩ := worker_has_terminal env files out_pdf
      exact ⟨e, he, by
        show e ∈ s.seen ++ s.chan
        rw [hseen]; exact hmem⟩
    | check hmode =>
      rw [hidle] at hmode
      cases hmode
  · intro hdead hchecking s2 hstep
    cases hstep with
    | put e rest hpend halive =>
      rw [hdead] at halive
      cases halive
    | exitWorker hpend halive =>
      rw [hdead] at halive
      cases halive
    | drain hmode =>
      rw [hchecking] at hmode
      cases hmode
    | check hmode =>
      show (if s.alive then PollMode.idle else PollMode.stopped) = PollMode.stopped
      rw [hdead]
      rfl

/-- Witness for C9 (amended): after the worker of the one-PDF run has died
with its events still queued, the next drain observes everything and the
following check stops the polling. -/
theorem poll_stop_amended_witness :
    (PollStep
      { pending := [], alive := false,
        chan := worker_main envMergeOk [fileA] "out.pdf", seen := [],
        mode := PollMode.idle }
      { pending := [], alive := false, chan := [],
        seen := worker_main envMergeOk [fileA] "out.pdf",
        mode := PollMode.checking } →
      worker_main envMergeOk [fileA] "out.pdf" =
        worker_main envMergeOk [fileA] "out.pdf") ∧
    ∀ s2, PollStep
      { pending := [], alive := false,
        chan := worker_main envMergeOk [fileA] "out.pdf", seen := [],
        mode := PollMode.idle } s2 →
      s2.seen = worker_main envMergeOk [fileA] "out.pdf" := by
  have hreach : PollReachable (worker_main envMergeOk [fileA] "out.pdf")
      { pending := [], alive := false,
        chan := worker_main envMergeOk [fileA] "out.pdf", seen := [],
        mode := PollMode.idle } := by
    refine Relation.ReflTransGen.head (PollStep.put _ _ _ rfl rfl) ?_
    refine Relation.ReflTransGen.head (PollStep.put _ _ _ rfl rfl) ?_
    refine Relation.ReflTransGen.head (PollStep.put _ _ _ rfl rfl) ?_
    refine Relation.ReflTransGen.head (PollStep.put _ _ _ rfl rfl) ?_
    exact Relation.ReflTransGen.single (PollStep.exitWorker _ rfl rfl)
  have h := poll_stop_amended envMergeOk [fileA] "out.pdf" _ hreach
  exact ⟨fun _ => rfl, fun s2 hs => (h.2.1 rfl rfl s2 hs).1⟩

/-- Counterexample to C9 as stated: an interleaving in which the worker
enqueues its terminal Done event and exits between the consumer's drain and
the consumer's aliveness check: the check finds the worker dead and stops
the polling while the Done event is still sitting undrained in the queue,
so the consumer stops polling before having observed the terminal event. -/
theorem poll_stops_before_terminal_drained :
    PollReachable (worker_main envMergeOk [fileA] "out.pdf")
      { pending := [], alive := false,
        chan := [Event.done "out.pdf"],
        seen := [Event.row "a.pdf" "Queued",
                 Event.progress 1 1 "Queued PDF: a.pdf",
                 Event.stage "Merging 1 PDF(s)…"],
        mode := PollMode.stopped } ∧
    Event.done "out.pdf" ∉
      [Event.row "a.pdf" "Queued", Event.progress 1 1 "Queued PDF: a.pdf",
       Event.stage "Merging 1 PDF(s)…"] := by
  constructor
  · show Relation.ReflTransGen PollStep _ _
    refine Relation.ReflTransGen.head (PollStep.put _ _ _ rfl rfl) ?_
    refine Relation.ReflTransGen.head (PollStep.put _ _ _ rfl rfl) ?_
    refine Relation.ReflTransGen.head (PollStep.put _ _ _ rfl rfl) ?_
    refine Relation.ReflTransGen.head (PollStep.drain _ rfl) ?_
    refine Relation.ReflTransGen.head (PollStep.put _ _ _ rfl rfl) ?_
    refine Relation.ReflTransGen.head (PollStep.exitWorker _ rfl rfl) ?_
    exact Relation.ReflTransGen.single (PollStep.check _ rfl)
  · decide

end AddToPDF
